import Mathlib

/-!
# Verification of the e-commerce backend (`main.py` / `schemas.py`)

Shallow embedding of the FastAPI backend: the request models, the
`serialize_document` / `serialize_id` helpers, and the request handlers
(`list_products`, `get_product`, `create_product`, `seed_products`,
`create_order`) are translated from `main.py`.  The storage layer
(`database.py`: `db`, `create_document`, `get_documents`) is not part of the
sources and is modelled from the spec's Storage Interface contract.

Python `dict`s are embedded as association lists (`Doc`) with dict-faithful
operations: lookup returns the first binding, assignment updates in place or
appends at the end, `pop` removes the binding while preserving the order of
the others.  Python floats are embedded as exact rationals, and BSON
`ObjectId` values as opaque natural-number tokens whose string form
(`oidStr`) models the 24-character zero-padded hexadecimal rendering of an
`ObjectId`.
-/

namespace EcommerceApi

/-- An order item as accepted by the `OrderItemIn` request model
(`main.py`): `product_id`, `title`, `price`, `quantity`, optional `image`.
Prices are Python floats, embedded as exact rationals; `quantity` is an
unconstrained `int` in the request model. -/
structure OrderItemIn where
  product_id : String
  title : String
  price : ℚ
  quantity : ℤ
  image : Option String
deriving DecidableEq, Repr

/-- A JSON-ish stored value.  `vOid n` embeds a BSON `ObjectId` as an opaque
token `n`; `vNone` is Python `None`; `vItems` is the list-of-item-dicts shape
produced by `[i.model_dump() for i in order.items]`. -/
inductive Value where
  | vStr : String → Value
  | vNum : ℚ → Value
  | vBool : Bool → Value
  | vOid : ℕ → Value
  | vNone : Value
  | vItems : List OrderItemIn → Value
deriving DecidableEq, Repr

/-- A stored document: a Python `dict` embedded as an ordered association
list of (key, value) bindings. -/
abbrev Doc := List (String × Value)

/-- `doc.get(k)`: the first binding for `k`, if any. -/
def dGet (d : Doc) (k : String) : Option Value :=
  (d.find? (fun p => p.1 == k)).map (·.2)

/-- `doc.pop(k)` (the removal part): drop the binding for `k`, keeping the
order of the other bindings.  Python dicts have unique keys, so dropping
every binding for `k` agrees with dropping the (unique) one. -/
def dRemove (d : Doc) (k : String) : Doc :=
  d.filter (fun p => p.1 != k)

/-- `doc[k] = v`: update the binding in place when `k` is present, append a
new binding at the end otherwise — Python dict assignment order semantics. -/
def dSet (d : Doc) (k : String) (v : Value) : Doc :=
  if d.any (fun p => p.1 == k) then
    d.map (fun p => if p.1 == k then (k, v) else p)
  else
    d ++ [(k, v)]

/-- The keys of a document, in order. -/
def dKeys (d : Doc) : List String := d.map (·.1)

/-- Hex rendering of one digit, as in the standard digit-to-character map
(`0`–`9`, `a`–`f`). -/
def hexChar (d : ℕ) : Char := Nat.digitChar d

/-- Big-endian hexadecimal digit characters of `n` (empty for `0`). -/
def hexChars (n : ℕ) : List Char :=
  ((Nat.digits 16 n).map hexChar).reverse

/-- The string form of an `ObjectId` token: 24-character zero-padded
hexadecimal, modelling `str(ObjectId)`. -/
def oidStr (n : ℕ) : String :=
  ⟨(hexChars n).leftpad 24 '0'⟩

/-- `serialize_id` (`main.py` lines 56–59): stringify a value when it is an
`ObjectId`, return it unchanged otherwise. -/
def serialize_id (v : Value) : Value :=
  match v with
  | .vOid n => .vStr (oidStr n)
  | v => v

/-- Stringify a value if it is an `ObjectId` — the body of the
`for k, v in list(doc.items())` loop of `serialize_document`. -/
def stringifyOid (v : Value) : Value :=
  match v with
  | .vOid n => .vStr (oidStr n)
  | v => v

/-- `serialize_document` (`main.py` lines 62–72): on a falsy (empty)
document return it unchanged; otherwise copy it, and when `doc.get("_id")`
is neither absent nor `None`, pop `_id` and assign `id` to its stringified
value; finally stringify every remaining top-level `ObjectId` value. -/
def serialize_document (doc : Doc) : Doc :=
  if doc = [] then doc
  else
    let d1 :=
      match dGet doc "_id" with
      | some v => if v ≠ Value.vNone then dSet (dRemove doc "_id") "id" (serialize_id v) else doc
      | none => doc
    d1.map (fun p => (p.1, stringifyOid p.2))

/-- The `ProductIn` request model (`main.py` lines 28–34). -/
structure ProductIn where
  title : String
  description : Option String
  price : ℚ
  category : String
  image : Option String
  in_stock : Bool
deriving DecidableEq, Repr

/-- The `OrderIn` request model (`main.py` lines 45–49): customer fields and
the item list.  No total field is part of the model. -/
structure OrderIn where
  customer_name : String
  customer_email : String
  shipping_address : String
  items : List OrderItemIn
deriving DecidableEq, Repr

/-- An optional text field as dumped by pydantic: `None` or the string. -/
def optStr : Option String → Value
  | none => Value.vNone
  | some s => Value.vStr s

/-- `product.model_dump()`: the `ProductIn` fields as a plain mapping, in
declaration order. -/
def productDump (p : ProductIn) : Doc :=
  [("title", .vStr p.title),
   ("description", optStr p.description),
   ("price", .vNum p.price),
   ("category", .vStr p.category),
   ("image", optStr p.image),
   ("in_stock", .vBool p.in_stock)]

/-- Modelled from the spec: the Storage Interface state (`database.py` is
not among the sources).  The `product` and `order` collections hold their
documents in insertion order, and `nextId` is the supply of store-generated
opaque identifiers: every identifier handed out so far is `< nextId`. -/
structure Store where
  product : List Doc
  order : List Doc
  nextId : ℕ
deriving DecidableEq, Repr

/-- Modelled from the spec: `insert(collectionName, documentBody) →
identifier` (`create_document` of `database.py`).  Persists a new document —
the body prefixed with a fresh store-generated `_id` — at the end of the
named collection and returns the new identifier. -/
def create_document (coll : String) (body : Doc) (s : Store) : ℕ × Store :=
  let nid := s.nextId
  let d : Doc := ("_id", Value.vOid nid) :: body
  if coll = "product" then
    (nid, { s with product := s.product ++ [d], nextId := nid + 1 })
  else if coll = "order" then
    (nid, { s with order := s.order ++ [d], nextId := nid + 1 })
  else
    (nid, { s with nextId := nid + 1 })

/-- Modelled from the spec: `findMany(collectionName, {}) → sequence of
documents` (`get_documents` of `database.py`) — all documents of the named
collection, in order. -/
def get_documents (coll : String) (s : Store) : List Doc :=
  if coll = "product" then s.product
  else if coll = "order" then s.order
  else []

/-- `find_one(coll, {"_id": oid})`: the first document of the collection
whose `_id` equals the given identifier. -/
def findOne (coll : List Doc) (oid : ℕ) : Option Doc :=
  coll.find? (fun d => dGet d "_id" == some (Value.vOid oid))

/-- The identifiers that occur as `_id` values in a collection. -/
def oidsOf (coll : List Doc) : List ℕ :=
  coll.filterMap (fun d =>
    match dGet d "_id" with
    | some (Value.vOid n) => some n
    | _ => none)

/-- Well-formedness of the store: every identifier already present in a
collection was handed out before `nextId`.  This is the Storage Interface's
freshness contract for store-generated identifiers. -/
def WF (s : Store) : Prop :=
  (∀ n ∈ oidsOf s.product, n < s.nextId) ∧ (∀ n ∈ oidsOf s.order, n < s.nextId)

instance : DecidablePred WF := fun s => by
  unfold WF; infer_instance

/-- An HTTP error as raised by `HTTPException(status_code, detail)`. -/
structure HTTPErr where
  status_code : ℕ
  detail : String
deriving DecidableEq, Repr

/-- Whether a character is a hexadecimal digit — the syntactic validity of
one character of an `ObjectId` string. -/
def isHexDigit (c : Char) : Bool :=
  c.isDigit || ('a' ≤ c && c ≤ 'f') || ('A' ≤ c && c ≤ 'F')

/-- The numeric value of a hexadecimal digit character. -/
def invHexChar (c : Char) : ℕ :=
  if c.isDigit then c.toNat - '0'.toNat
  else if 'a' ≤ c && c ≤ 'f' then c.toNat - 'a'.toNat + 10
  else if 'A' ≤ c && c ≤ 'F' then c.toNat - 'A'.toNat + 10
  else 0

/-- `ObjectId(s)` on a string argument, modelling the bson constructor: it
succeeds exactly on 24-character hexadecimal strings and yields the opaque
token they denote, raising (here: `none`) otherwise. -/
def parseOid (s : String) : Option ℕ :=
  if s.length = 24 ∧ s.data.all isHexDigit then
    some (Nat.ofDigits 16 ((s.data.map invHexChar).reverse))
  else
    none

/-- `GET /api/products` (`main.py` lines 126–129): when `db` is falsy the
document list is empty, otherwise it is `get_documents("product")`; each
document is serialized.  The handler raises no HTTP error. -/
def list_products (db : Option Store) : List Doc :=
  let docs := match db with
    | some s => get_documents "product" s
    | none => []
  docs.map serialize_document

/-- `GET /api/products/{product_id}` (`main.py` lines 132–143): 500 when the
database is unavailable, 400 when the identifier fails to parse as an
`ObjectId`, 404 when no (truthy) document carries it, otherwise the
serialized document. -/
def get_product (db : Option Store) (product_id : String) : Except HTTPErr Doc :=
  match db with
  | none => .error ⟨500, "Database not available"⟩
  | some s =>
    match parseOid product_id with
    | none => .error ⟨400, "Invalid product id"⟩
    | some oid =>
      match findOne s.product oid with
      | none => .error ⟨404, "Product not found"⟩
      | some doc =>
        if doc = [] then .error ⟨404, "Product not found"⟩
        else .ok (serialize_document doc)

/-- `POST /api/products` (`main.py` lines 146–152): insert the dumped body,
re-read the created document by its new identifier, and return it
serialized (Python would return `None` should the re-read miss).  The
second component is the post-state of the store. -/
def create_product (db : Option Store) (p : ProductIn) :
    Except HTTPErr (Option Doc) × Option Store :=
  match db with
  | none => (.error ⟨500, "Database not available"⟩, none)
  | some s =>
    let (nid, s1) := create_document "product" (productDump p) s
    ((Except.ok ((findOne s1.product nid).map serialize_document)), some s1)

/-- Seed catalog entry 1 (`main.py` lines 160–167). -/
def sample1 : Doc :=
  [("title", .vStr "Vintage Leather Backpack"),
   ("description", .vStr "Handcrafted full-grain leather backpack with padded laptop sleeve."),
   ("price", .vNum (12999 / 100)),
   ("category", .vStr "Bags"),
   ("image", .vStr "https://images.unsplash.com/photo-1514477917009-389c76a86b68?q=80&w=1200&auto=format&fit=crop"),
   ("in_stock", .vBool true)]

/-- Seed catalog entry 2 (`main.py` lines 168–175). -/
def sample2 : Doc :=
  [("title", .vStr "Minimalist Watch"),
   ("description", .vStr "Stainless steel case, sapphire glass, Japanese movement."),
   ("price", .vNum 89),
   ("category", .vStr "Accessories"),
   ("image", .vStr "https://images.unsplash.com/photo-1511379938547-c1f69419868d?q=80&w=1200&auto=format&fit=crop"),
   ("in_stock", .vBool true)]

/-- Seed catalog entry 3 (`main.py` lines 176–183). -/
def sample3 : Doc :=
  [("title", .vStr "Wireless Headphones"),
   ("description", .vStr "Active noise cancellation with 30h battery life."),
   ("price", .vNum 159),
   ("category", .vStr "Audio"),
   ("image", .vStr "https://images.unsplash.com/photo-1518443254571-1f1e5b2d1a1f?q=80&w=1200&auto=format&fit=crop"),
   ("in_stock", .vBool true)]

/-- Seed catalog entry 4 (`main.py` lines 184–191). -/
def sample4 : Doc :=
  [("title", .vStr "Ceramic Mug"),
   ("description", .vStr "Matte glaze 12oz mug, microwave and dishwasher safe."),
   ("price", .vNum (37 / 2)),
   ("category", .vStr "Home"),
   ("image", .vStr "https://images.unsplash.com/photo-1512100356356-de1b84283e18?q=80&w=1200&auto=format&fit=crop"),
   ("in_stock", .vBool true)]

/-- Membership test of a document's `_id` in a list of identifiers — the
`{"_id": {"$in": inserted}}` filter of the seed route. -/
def idIn (ids : List ℕ) (d : Doc) : Bool :=
  match dGet d "_id" with
  | some (Value.vOid n) => ids.contains n
  | _ => false

/-- `POST /api/seed` (`main.py` lines 155–199): insert the four literal
catalog entries in order, then return — serialized, in collection order —
the documents whose `_id` is among the four new identifiers. -/
def seed_products (db : Option Store) :
    Except HTTPErr (List Doc) × Option Store :=
  match db with
  | none => (.error ⟨500, "Database not available"⟩, none)
  | some s =>
    let (id1, s1) := create_document "product" sample1 s
    let (id2, s2) := create_document "product" sample2 s1
    let (id3, s3) := create_document "product" sample3 s2
    let (id4, s4) := create_document "product" sample4 s3
    let docs := s4.product.filter (idIn [id1, id2, id3, id4])
    (.ok (docs.map serialize_document), some s4)

/-- `sum(i.price * max(1, i.quantity) for i in order.items)`
(`main.py` line 212). -/
def order_items_total (items : List OrderItemIn) : ℚ :=
  (items.map (fun i => i.price * ((max 1 i.quantity : ℤ) : ℚ))).sum

/-- `round(total, 2)`: rounding to two decimal places.  Mathlib's `round`
(round-half-up) stands in for Python's float rounding; no claim in scope
depends on the tie-breaking direction. -/
def round2 (q : ℚ) : ℚ := ((round (q * 100) : ℤ) : ℚ) / 100

/-- The `order_data` mapping built by `create_order`
(`main.py` lines 213–220). -/
def orderData (o : OrderIn) : Doc :=
  [("customer_name", .vStr o.customer_name),
   ("customer_email", .vStr o.customer_email),
   ("shipping_address", .vStr o.shipping_address),
   ("items", .vItems o.items),
   ("total_amount", .vNum (round2 (order_items_total o.items))),
   ("status", .vStr "pending")]

/-- `POST /api/orders` (`main.py` lines 205–225): 500 when the database is
unavailable; 400 and no insert when `items` is empty; otherwise insert the
computed `order_data`, re-read the created document, serialize it and attach
the success message (a missing re-read would make Python subscript `None`,
an internal server error).  The second component is the post-state. -/
def create_order (db : Option Store) (o : OrderIn) :
    Except HTTPErr Doc × Option Store :=
  match db with
  | none => (.error ⟨500, "Database not available"⟩, none)
  | some s =>
    if o.items = [] then
      (.error ⟨400, "Order must contain at least one item"⟩, some s)
    else
      let (nid, s1) := create_document "order" (orderData o) s
      match findOne s1.order nid with
      | none => (.error ⟨500, "Internal Server Error"⟩, some s1)
      | some created =>
        (.ok (dSet (serialize_document created) "message"
                (.vStr "Order placed successfully")), some s1)

/-! ## Properties of the identifier string form -/

theorem invHexChar_hexChar : ∀ d < 16, invHexChar (hexChar d) = d := by decide

theorem hexChar_ne_zero_char : ∀ d < 16, d ≠ 0 → hexChar d ≠ '0' := by decide

theorem map_invHexChar_map_hexChar (l : List ℕ) (hl : ∀ d ∈ l, d < 16) :
    (l.map hexChar).map invHexChar = l := by
  induction l with
  | nil => rfl
  | cons a t ih =>
    simp only [List.map_cons, List.cons.injEq]
    exact ⟨invHexChar_hexChar a (hl a (by simp)), ih (fun d hd => hl d (by simp [hd]))⟩

theorem map_hexChar_inj {l1 l2 : List ℕ} (h1 : ∀ d ∈ l1, d < 16) (h2 : ∀ d ∈ l2, d < 16)
    (h : l1.map hexChar = l2.map hexChar) : l1 = l2 := by
  calc l1 = (l1.map hexChar).map invHexChar := (map_invHexChar_map_hexChar l1 h1).symm
    _ = (l2.map hexChar).map invHexChar := by rw [h]
    _ = l2 := map_invHexChar_map_hexChar l2 h2

theorem hexChars_injective : Function.Injective hexChars := by
  intro m n h
  unfold hexChars at h
  have h' := List.reverse_injective h
  have hd := map_hexChar_inj
    (fun d hd => Nat.digits_lt_base (by norm_num) hd)
    (fun d hd => Nat.digits_lt_base (by norm_num) hd) h'
  calc m = Nat.ofDigits 16 (Nat.digits 16 m) := (Nat.ofDigits_digits 16 m).symm
    _ = Nat.ofDigits 16 (Nat.digits 16 n) := by rw [hd]
    _ = n := Nat.ofDigits_digits 16 n

theorem dropWhile_zero_hexChars (n : ℕ) :
    (hexChars n).dropWhile (fun c => c == '0') = hexChars n := by
  rcases eq_or_ne n 0 with rfl | hn
  · simp [hexChars]
  · have hL : Nat.digits 16 n ≠ [] := Nat.digits_ne_nil_iff_ne_zero.mpr hn
    have hne : (Nat.digits 16 n).reverse ≠ [] := by simpa using hL
    obtain ⟨b, t, hbt⟩ := List.exists_cons_of_ne_nil hne
    have hb : b = (Nat.digits 16 n).getLast hL := by
      have h1 : (Nat.digits 16 n).reverse.head? = some b := by rw [hbt]; rfl
      rw [List.head?_reverse, List.getLast?_eq_getLast _ hL] at h1
      exact (Option.some.injEq _ _ ▸ h1).symm
    have hbmem : b ∈ Nat.digits 16 n := hb ▸ List.getLast_mem hL
    have hblt : b < 16 := Nat.digits_lt_base (by norm_num) hbmem
    have hbz : b ≠ 0 := hb ▸ Nat.getLast_digit_ne_zero 16 hn
    have hrev : hexChars n = hexChar b :: t.map hexChar := by
      unfold hexChars
      rw [← List.map_reverse, hbt, List.map_cons]
    have hbc : (hexChar b == '0') = false := by
      simpa using hexChar_ne_zero_char b hblt hbz
    rw [hrev, List.dropWhile_cons, hbc]
    simp

theorem dropWhile_zero_leftpad (k : ℕ) :
    ((hexChars k).leftpad 24 '0').dropWhile (fun c => c == '0') = hexChars k := by
  show (List.replicate (24 - (hexChars k).length) '0' ++ hexChars k).dropWhile _ = _
  rw [List.dropWhile_append, List.dropWhile_replicate]
  simp [dropWhile_zero_hexChars]

theorem oidStr_injective : Function.Injective oidStr := by
  intro m n h
  apply hexChars_injective
  have h' : (hexChars m).leftpad 24 '0' = (hexChars n).leftpad 24 '0' :=
    congrArg String.data h
  rw [← dropWhile_zero_leftpad m, ← dropWhile_zero_leftpad n, h']

theorem oidStr_length (n : ℕ) : 24 ≤ (oidStr n).length := by
  show 24 ≤ ((hexChars n).leftpad 24 '0').length
  rw [List.leftpad_length]
  exact le_max_left _ _

theorem oidStr_ne_empty (n : ℕ) : oidStr n ≠ "" := by
  intro h
  have h24 := oidStr_length n
  rw [h] at h24
  simp [String.length] at h24

/-! ## Dictionary lemmas -/

theorem dGet_nil (k : String) : dGet [] k = none := rfl

theorem dGet_cons (a : String) (b : Value) (t : Doc) (k : String) :
    dGet ((a, b) :: t) k = if a == k then some b else dGet t k := by
  by_cases h : a == k <;> simp [dGet, List.find?, h]

theorem dGet_append_right {l1 : Doc} (l2 : Doc) {k : String}
    (h : dGet l1 k = none) : dGet (l1 ++ l2) k = dGet l2 k := by
  induction l1 with
  | nil => rfl
  | cons a t ih =>
    rw [List.cons_append, ← a.eta, dGet_cons] at *
    by_cases hk : a.1 == k
    · simp [hk] at h
    · simp only [hk, if_false] at h ⊢
      exact ih h

theorem dGet_append_left {l1 : Doc} (l2 : Doc) {k : String} {v : Value}
    (h : dGet l1 k = some v) : dGet (l1 ++ l2) k = some v := by
  induction l1 with
  | nil => simp [dGet_nil] at h
  | cons a t ih =>
    rw [List.cons_append, ← a.eta, dGet_cons] at *
    by_cases hk : a.1 == k
    · simpa [hk] using h
    · simp only [hk, if_false] at h ⊢
      exact ih h

theorem dGet_map_stringify (l : Doc) (k : String) :
    dGet (l.map (fun p => (p.1, stringifyOid p.2))) k = (dGet l k).map stringifyOid := by
  induction l with
  | nil => rfl
  | cons a t ih =>
    rw [List.map_cons, ← a.eta, dGet_cons, dGet_cons]
    by_cases hk : a.1 == k <;> simp [hk, ih]

theorem dGet_dRemove_ne {j k : String} (d : Doc) (h : j ≠ k) :
    dGet (dRemove d j) k = dGet d k := by
  induction d with
  | nil => rfl
  | cons a t ih =>
    rw [← a.eta, dRemove, List.filter_cons]
    by_cases hj : (a.1 == j) = true
    · have haj : a.1 = j := by simpa using hj
      have hk : (a.1 == k) = false := by
        simp only [beq_eq_false_iff_ne, ne_eq, haj]
        exact h
      have hbne : (a.1 != j) = false := by simp [bne, hj]
      rw [hbne, if_neg (by simp)]
      rw [dGet_cons, hk, if_neg (by simp)]
      exact ih
    · have hbne : (a.1 != j) = true := by simp [bne, hj]
      rw [hbne, if_pos rfl]
      rw [dGet_cons, dGet_cons]
      by_cases hk : (a.1 == k) = true
      · rw [hk, if_pos rfl, if_pos rfl]
      · rw [eq_false_of_ne_true hk, if_neg (by simp), if_neg (by simp)]
        exact ih

theorem dGet_eq_none_of_not_mem_keys {d : Doc} {k : String} (h : k ∉ dKeys d) :
    dGet d k = none := by
  induction d with
  | nil => rfl
  | cons a t ih =>
    rw [← a.eta, dGet_cons]
    simp only [dKeys, List.map_cons, List.mem_cons, not_or] at h
    have : (a.1 == k) = false := by simpa using fun e => h.1 e.symm
    simp only [this, if_false]
    exact ih h.2

theorem any_key_eq_false {d : Doc} {k : String} (h : k ∉ dKeys d) :
    d.any (fun p => p.1 == k) = false := by
  simp only [List.any_eq_false]
  intro p hp
  simp only [beq_iff_eq]
  intro e
  exact h (e ▸ List.mem_map_of_mem (·.1) hp)

theorem dKeys_dRemove_subset {d : Doc} {j : String} : dKeys (dRemove d j) ⊆ dKeys d := by
  intro k hk
  simp only [dKeys, List.mem_map] at hk ⊢
  obtain ⟨p, hp, he⟩ := hk
  exact ⟨p, List.mem_of_mem_filter hp, he⟩

theorem stringifyOid_eq_self {v : Value} (h : ∀ n : ℕ, v ≠ Value.vOid n) :
    stringifyOid v = v := by
  cases v <;> first | rfl | exact absurd rfl (h _)

theorem map_stringifyOid_eq_self {d : Doc} (h : ∀ p ∈ d, ∀ n : ℕ, p.2 ≠ Value.vOid n) :
    d.map (fun p => (p.1, stringifyOid p.2)) = d := by
  induction d with
  | nil => rfl
  | cons a t ih =>
    rw [List.map_cons]
    rw [stringifyOid_eq_self (h a (by simp)), a.eta]
    rw [ih (fun p hp => h p (by simp [hp]))]

/-- The serialized form of a document with an `ObjectId` under `_id` and no
`id` key: the `_id` binding is removed, every other value is
oid-stringified in place, and a stringified `id` binding is appended. -/
theorem serialize_document_spec {d : Doc} {n : ℕ}
    (hid : dGet d "_id" = some (Value.vOid n)) (hno : "id" ∉ dKeys d) :
    serialize_document d =
      (dRemove d "_id").map (fun p => (p.1, stringifyOid p.2))
        ++ [("id", Value.vStr (oidStr n))] := by
  have hne : d ≠ [] := by rintro rfl; simp [dGet_nil] at hid
  have hnn : Value.vOid n ≠ Value.vNone := by simp
  have hany : ((dRemove d "_id").any (fun p => p.1 == "id")) = false := by
    apply any_key_eq_false
    exact fun hmem => hno (dKeys_dRemove_subset hmem)
  unfold serialize_document
  rw [if_neg hne, hid]
  dsimp only
  rw [if_pos hnn]
  rw [serialize_id, dSet, hany, if_neg (by simp)]
  rw [List.map_append]
  rfl

theorem dGet_dRemove_self (d : Doc) (j : String) : dGet (dRemove d j) j = none := by
  induction d with
  | nil => rfl
  | cons a t ih =>
    rw [← a.eta, dRemove, List.filter_cons]
    by_cases hj : (a.1 == j) = true
    · have hbne : (a.1 != j) = false := by simp [bne, hj]
      rw [hbne, if_neg (by simp)]
      exact ih
    · have hbne : (a.1 != j) = true := by simp [bne, hj]
      rw [hbne, if_pos rfl, dGet_cons, eq_false_of_ne_true hj, if_neg (by simp)]
      exact ih

end EcommerceApi

namespace EcommerceApi

/-! ## Storage lemmas -/

theorem oidsOf_nil : oidsOf [] = [] := rfl

theorem oidsOf_cons_oid {d : Doc} {m : ℕ} (t : List Doc)
    (h : dGet d "_id" = some (Value.vOid m)) : oidsOf (d :: t) = m :: oidsOf t := by
  rw [oidsOf, List.filterMap_cons, h]
  rfl

theorem mem_oidsOf_head {d : Doc} {m : ℕ} (t : List Doc)
    (h : dGet d "_id" = some (Value.vOid m)) : m ∈ oidsOf (d :: t) := by
  rw [oidsOf_cons_oid t h]
  exact List.mem_cons_self m _

theorem oidsOf_cons_eq (d : Doc) (t : List Doc) :
    oidsOf (d :: t) = oidsOf t ∨ ∃ m, oidsOf (d :: t) = m :: oidsOf t := by
  cases hm : dGet d "_id" with
  | none => left; simp only [oidsOf, List.filterMap_cons, hm]
  | some v =>
    cases v with
    | vOid m => right; exact ⟨m, by simp only [oidsOf, List.filterMap_cons, hm]⟩
    | vStr a => left; simp only [oidsOf, List.filterMap_cons, hm]
    | vNum a => left; simp only [oidsOf, List.filterMap_cons, hm]
    | vBool a => left; simp only [oidsOf, List.filterMap_cons, hm]
    | vNone => left; simp only [oidsOf, List.filterMap_cons, hm]
    | vItems a => left; simp only [oidsOf, List.filterMap_cons, hm]

theorem oidsOf_cons_subset {d : Doc} {t : List Doc} : oidsOf t ⊆ oidsOf (d :: t) := by
  intro n hn
  rcases oidsOf_cons_eq d t with h | ⟨m, h⟩
  · rw [h]; exact hn
  · rw [h]; exact List.mem_cons_of_mem m hn

theorem findOne_eq_none {coll : List Doc} {nid : ℕ}
    (h : ∀ n ∈ oidsOf coll, n ≠ nid) : findOne coll nid = none := by
  induction coll with
  | nil => rfl
  | cons d t ih =>
    have hpred : (dGet d "_id" == some (Value.vOid nid)) = false := by
      rw [beq_eq_false_iff_ne]
      intro he
      exact h nid (mem_oidsOf_head t he) rfl
    rw [findOne, List.find?_cons_of_neg _ (by simp [hpred])]
    exact ih (fun n hn => h n (oidsOf_cons_subset hn))

theorem findOne_append_none {l1 : List Doc} (l2 : List Doc) {nid : ℕ}
    (h : findOne l1 nid = none) : findOne (l1 ++ l2) nid = findOne l2 nid := by
  unfold findOne at *
  rw [List.find?_append, h]
  rfl

theorem findOne_singleton {d : Doc} {nid : ℕ}
    (h : dGet d "_id" = some (Value.vOid nid)) : findOne [d] nid = some d := by
  rw [findOne, List.find?_cons_of_pos]
  rw [h]
  exact beq_self_eq_true _

theorem filter_idIn_eq_nil {coll : List Doc} {ids : List ℕ}
    (h : ∀ n ∈ oidsOf coll, n ∉ ids) : coll.filter (idIn ids) = [] := by
  induction coll with
  | nil => rfl
  | cons d t ih =>
    have hpred : idIn ids d = false := by
      rw [idIn]
      cases hm : dGet d "_id" with
      | none => rfl
      | some v =>
        cases v with
        | vOid m =>
          simpa using h m (mem_oidsOf_head t hm)
        | _ => rfl
    rw [List.filter_cons, hpred, if_neg (by simp)]
    exact ih (fun n hn => h n (oidsOf_cons_subset hn))

theorem create_document_order (b : Doc) (s : Store) :
    create_document "order" b s =
      (s.nextId, { s with order := s.order ++ [("_id", Value.vOid s.nextId) :: b],
                          nextId := s.nextId + 1 }) := by
  simp [create_document]

theorem create_document_product (b : Doc) (s : Store) :
    create_document "product" b s =
      (s.nextId, { s with product := s.product ++ [("_id", Value.vOid s.nextId) :: b],
                          nextId := s.nextId + 1 }) := by
  simp [create_document]

/-- Characterization of a successful `POST /api/orders`: the inserted order
document, the returned serialized body, and the post-state, for a
well-formed store and a non-empty item list. -/
theorem create_order_ok (s : Store) (o : OrderIn) (hWF : WF s) (hne : o.items ≠ []) :
    create_order (some s) o =
      (.ok (orderData o ++ [("id", Value.vStr (oidStr s.nextId)),
              ("message", Value.vStr "Order placed successfully")]),
       some { s with order := s.order ++ [("_id", Value.vOid s.nextId) :: orderData o],
                     nextId := s.nextId + 1 }) := by
  have hnone : findOne s.order s.nextId = none :=
    findOne_eq_none (fun n hn => Nat.ne_of_lt (hWF.2 n hn))
  have hfind : findOne (s.order ++ [("_id", Value.vOid s.nextId) :: orderData o]) s.nextId
      = some (("_id", Value.vOid s.nextId) :: orderData o) := by
    rw [findOne_append_none _ hnone]
    exact findOne_singleton (by rw [dGet_cons]; simp)
  unfold create_order
  dsimp only
  rw [if_neg hne, create_document_order]
  dsimp only
  rw [hfind]
  rfl

theorem stringifyOid_optStr (x : Option String) : stringifyOid (optStr x) = optStr x := by
  cases x <;> rfl

theorem stringifyOid_vStr (s : String) : stringifyOid (.vStr s) = .vStr s := rfl

theorem stringifyOid_vNum (q : ℚ) : stringifyOid (.vNum q) = .vNum q := rfl

theorem stringifyOid_vBool (b : Bool) : stringifyOid (.vBool b) = .vBool b := rfl

theorem map_stringify_productDump (p : ProductIn) :
    (productDump p).map (fun q => (q.1, stringifyOid q.2)) = productDump p := by
  simp only [productDump, List.map_cons, List.map_nil, stringifyOid_optStr,
    stringifyOid_vStr, stringifyOid_vNum, stringifyOid_vBool]

/-- The serialized form of a freshly created product document. -/
theorem serialize_created_product (p : ProductIn) (nid : ℕ) :
    serialize_document (("_id", Value.vOid nid) :: productDump p)
      = productDump p ++ [("id", Value.vStr (oidStr nid))] := by
  rw [serialize_document_spec (d := ("_id", Value.vOid nid) :: productDump p) (n := nid)
      (by rw [dGet_cons]; simp) (by simp [dKeys, productDump])]
  rw [show dRemove (("_id", Value.vOid nid) :: productDump p) "_id" = productDump p from rfl]
  rw [map_stringify_productDump]

/-- Characterization of a successful `POST /api/products`: the inserted
product document, the returned serialized body, and the post-state, for a
well-formed store. -/
theorem create_product_ok (s : Store) (p : ProductIn) (hWF : WF s) :
    create_product (some s) p =
      (.ok (some (productDump p ++ [("id", Value.vStr (oidStr s.nextId))])),
       some { s with product := s.product ++ [("_id", Value.vOid s.nextId) :: productDump p],
                     nextId := s.nextId + 1 }) := by
  have hnone : findOne s.product s.nextId = none :=
    findOne_eq_none (fun n hn => Nat.ne_of_lt (hWF.1 n hn))
  have hfind : findOne (s.product ++ [("_id", Value.vOid s.nextId) :: productDump p]) s.nextId
      = some (("_id", Value.vOid s.nextId) :: productDump p) := by
    rw [findOne_append_none _ hnone]
    exact findOne_singleton (by rw [dGet_cons]; simp)
  unfold create_product
  dsimp only
  rw [create_document_product]
  dsimp only
  rw [hfind]
  dsimp only [Option.map]
  rw [serialize_created_product]

open Value

/-- **C1.** For every order request with at least one item accepted by
`POST /api/orders` (on a well-formed available store), the `total_amount`
stored in the inserted order document and returned in the response body
equals `round2` of the sum over items of `price * max 1 quantity` — the
server-side total computation of `main.py` line 212 and 218. -/
theorem create_order_total_amount (s : Store) (o : OrderIn)
    (hWF : WF s) (hne : o.items ≠ []) :
    ∃ (d stored : Doc) (s' : Store),
      create_order (some s) o = (.ok d, some s') ∧
      s'.order = s.order ++ [stored] ∧
      dGet d "total_amount" = some (.vNum (round2 (order_items_total o.items))) ∧
      dGet stored "total_amount" = some (.vNum (round2 (order_items_total o.items))) := by
  exact ⟨_, _, _, create_order_ok s o hWF hne, rfl, rfl, rfl⟩

/-- Closed instance of C1: the claim's fixed example — items priced 10.00
with quantity 2 and 5.50 with quantity 1 yield `total_amount = 25.50`. -/
theorem create_order_total_amount_witness :
    round2 (order_items_total
        [⟨"p1", "A", 10, 2, none⟩, ⟨"p2", "B", 11/2, 1, none⟩]) = 51/2 ∧
    ∃ (d stored : Doc) (s' : Store),
      create_order (some ⟨[], [], 0⟩)
          ⟨"n", "e", "a", [⟨"p1", "A", 10, 2, none⟩, ⟨"p2", "B", 11/2, 1, none⟩]⟩
        = (.ok d, some s') ∧
      s'.order = Store.order ⟨[], [], 0⟩ ++ [stored] ∧
      dGet d "total_amount" = some (.vNum (round2 (order_items_total
        [⟨"p1", "A", 10, 2, none⟩, ⟨"p2", "B", 11/2, 1, none⟩]))) ∧
      dGet stored "total_amount" = some (.vNum (round2 (order_items_total
        [⟨"p1", "A", 10, 2, none⟩, ⟨"p2", "B", 11/2, 1, none⟩]))) := by
  constructor
  · norm_num [round2, order_items_total, round_eq]
  · exact create_order_total_amount ⟨[], [], 0⟩
      ⟨"n", "e", "a", [⟨"p1", "A", 10, 2, none⟩, ⟨"p2", "B", 11/2, 1, none⟩]⟩
      (by decide) (by decide)

/-- **C2.** `POST /api/orders` with an empty `items` sequence fails with
status 400 and performs no insert: the entire store — the order collection
included — is returned unchanged. -/
theorem create_order_empty_items (s : Store) (o : OrderIn) (h : o.items = []) :
    create_order (some s) o =
      (.error ⟨400, "Order must contain at least one item"⟩, some s) := by
  unfold create_order
  dsimp only
  rw [if_pos h]

/-- Closed instance of C2 at a concrete store and empty-items order. -/
theorem create_order_empty_items_witness :
    create_order (some ⟨[sample1], [], 1⟩) ⟨"n", "e", "a", []⟩ =
      (.error ⟨400, "Order must contain at least one item"⟩, some ⟨[sample1], [], 1⟩) :=
  create_order_empty_items ⟨[sample1], [], 1⟩ ⟨"n", "e", "a", []⟩ rfl

/-- **C3.** For every valid Product body (on a well-formed available
store), `POST /api/products` returns a document whose `id` is a non-empty
string absent from the input, and whose `title`, `description`, `price`,
`category`, `image` and `in_stock` fields echo the input exactly. -/
theorem create_product_echoes_input (s : Store) (p : ProductIn) (hWF : WF s) :
    ∃ d : Doc,
      (create_product (some s) p).1 = .ok (some d) ∧
      dGet d "id" = some (.vStr (oidStr s.nextId)) ∧
      oidStr s.nextId ≠ "" ∧
      dGet (productDump p) "id" = none ∧
      dGet d "title" = some (.vStr p.title) ∧
      dGet d "description" = some (optStr p.description) ∧
      dGet d "price" = some (.vNum p.price) ∧
      dGet d "category" = some (.vStr p.category) ∧
      dGet d "image" = some (optStr p.image) ∧
      dGet d "in_stock" = some (.vBool p.in_stock) := by
  exact ⟨productDump p ++ [("id", Value.vStr (oidStr s.nextId))],
    by rw [create_product_ok s p hWF], rfl, oidStr_ne_empty _, rfl,
    rfl, rfl, rfl, rfl, rfl, rfl⟩

/-- Closed instance of C3 at a concrete product body and empty store. -/
theorem create_product_echoes_input_witness :
    ∃ d : Doc,
      (create_product (some ⟨[], [], 0⟩) ⟨"T", some "D", 5, "C", none, true⟩).1
        = .ok (some d) ∧
      dGet d "id" = some (.vStr (oidStr 0)) ∧
      oidStr 0 ≠ "" ∧
      dGet (productDump ⟨"T", some "D", 5, "C", none, true⟩) "id" = none ∧
      dGet d "title" = some (.vStr "T") ∧
      dGet d "description" = some (optStr (some "D")) ∧
      dGet d "price" = some (.vNum 5) ∧
      dGet d "category" = some (.vStr "C") ∧
      dGet d "image" = some (optStr none) ∧
      dGet d "in_stock" = some (.vBool true) :=
  create_product_echoes_input ⟨[], [], 0⟩ ⟨"T", some "D", 5, "C", none, true⟩ (by decide)

/-- **C6.** `total_amount` is a function of `items` only, recomputed
server-side: two `POST /api/orders` bodies agreeing on `items` (whatever
their other fields, and against whatever well-formed stores) produce
documents with the same `total_amount`; the `OrderIn` request model admits
no client-supplied total that could influence it. -/
theorem total_amount_function_of_items (s1 s2 : Store) (o1 o2 : OrderIn)
    (hWF1 : WF s1) (hWF2 : WF s2) (hitems : o1.items = o2.items)
    (hne : o1.items ≠ []) :
    ∃ d1 d2 : Doc,
      (create_order (some s1) o1).1 = .ok d1 ∧
      (create_order (some s2) o2).1 = .ok d2 ∧
      dGet d1 "total_amount" = dGet d2 "total_amount" ∧
      dGet d1 "total_amount" = some (.vNum (round2 (order_items_total o1.items))) := by
  refine ⟨_, _, by rw [create_order_ok s1 o1 hWF1 hne],
    by rw [create_order_ok s2 o2 hWF2 (hitems ▸ hne)], ?_, ?_⟩
  · have h1 : dGet (orderData o1 ++ [("id", Value.vStr (oidStr s1.nextId)),
        ("message", Value.vStr "Order placed successfully")]) "total_amount"
        = some (Value.vNum (round2 (order_items_total o1.items))) := rfl
    have h2 : dGet (orderData o2 ++ [("id", Value.vStr (oidStr s2.nextId)),
        ("message", Value.vStr "Order placed successfully")]) "total_amount"
        = some (Value.vNum (round2 (order_items_total o2.items))) := rfl
    rw [h1, h2, hitems]
  · exact rfl

/-- Closed instance of C6: same items, different customers and stores, same
total. -/
theorem total_amount_function_of_items_witness :
    ∃ d1 d2 : Doc,
      (create_order (some ⟨[], [], 0⟩) ⟨"n1", "e1", "a1", [⟨"p", "A", 7, 3, none⟩]⟩).1
        = .ok d1 ∧
      (create_order (some ⟨[sample1], [], 5⟩) ⟨"n2", "e2", "a2", [⟨"p", "A", 7, 3, none⟩]⟩).1
        = .ok d2 ∧
      dGet d1 "total_amount" = dGet d2 "total_amount" ∧
      dGet d1 "total_amount" = some (.vNum (round2 (order_items_total [⟨"p", "A", 7, 3, none⟩]))) :=
  total_amount_function_of_items ⟨[], [], 0⟩ ⟨[sample1], [], 5⟩
    ⟨"n1", "e1", "a1", [⟨"p", "A", 7, 3, none⟩]⟩ ⟨"n2", "e2", "a2", [⟨"p", "A", 7, 3, none⟩]⟩
    (by decide) (by decide) rfl (by decide)

/-- **C9.** `GET /api/products` returns the empty list when storage is
unavailable and otherwise the full product collection, each document
serialized; the handler's type admits no error response. -/
theorem list_products_spec :
    list_products none = [] ∧
      ∀ s : Store, list_products (some s) = (get_documents "product" s).map serialize_document :=
  ⟨rfl, fun _ => rfl⟩

/-- **C4.** For every path identifier given to `GET /api/products/{id}`
with storage available: a malformed identifier (one `ObjectId` refuses to
parse) yields exactly status 400, a well-formed identifier with no matching
product document yields exactly status 404, and the two statuses never
cross: 404 implies the identifier parsed, 400 implies it did not. -/
theorem get_product_statuses (s : Store) (pid : String) :
    (parseOid pid = none →
      get_product (some s) pid = .error ⟨400, "Invalid product id"⟩) ∧
    (∀ n, parseOid pid = some n → findOne s.product n = none →
      get_product (some s) pid = .error ⟨404, "Product not found"⟩) ∧
    (get_product (some s) pid = .error ⟨404, "Product not found"⟩ →
      parseOid pid ≠ none) ∧
    (get_product (some s) pid = .error ⟨400, "Invalid product id"⟩ →
      parseOid pid = none) := by
  unfold get_product
  dsimp only
  cases hp : parseOid pid with
  | none =>
    dsimp only
    refine ⟨fun _ => rfl, fun n hn => ?_, fun h => ?_, fun _ => rfl⟩
    · simp at hn
    · simp at h
  | some n =>
    dsimp only
    cases hf : findOne s.product n with
    | none =>
      dsimp only
      refine ⟨fun h => ?_, fun m hm hfm => ?_, fun _ => ?_, fun h => ?_⟩
      · simp at h
      · rfl
      · simp
      · simp at h
    | some doc =>
      dsimp only
      by_cases hd : doc = []
      · rw [if_pos hd]
        refine ⟨fun h => ?_, fun m hm hfm => ?_, fun _ => ?_, fun h => ?_⟩
        · simp at h
        · rfl
        · simp
        · simp at h
      · rw [if_neg hd]
        refine ⟨fun h => ?_, fun m hm hfm => ?_, fun _ => ?_, fun h => ?_⟩
        · simp at h
        · rw [Option.some.injEq] at hm
          rw [← hm, hf] at hfm
          cases hfm
        · simp
        · simp at h

/-- Closed instances of C4: a malformed identifier draws 400, a well-formed
absent one draws 404, on a concrete empty store. -/
theorem get_product_statuses_witness :
    get_product (some ⟨[], [], 0⟩) "zz" = .error ⟨400, "Invalid product id"⟩ ∧
    get_product (some ⟨[], [], 0⟩) "000000000000000000000005"
      = .error ⟨404, "Product not found"⟩ :=
  ⟨(get_product_statuses ⟨[], [], 0⟩ "zz").1 (by decide),
   (get_product_statuses ⟨[], [], 0⟩ "000000000000000000000005").2.1 5 (by decide) rfl⟩

/-- Characterization of `POST /api/seed` on a well-formed available store:
the four literal catalog entries are inserted in order with the four next
fresh identifiers, and exactly their serializations are returned. -/
theorem seed_products_ok (s : Store) (hWF : WF s) :
    seed_products (some s) =
      (.ok [sample1 ++ [("id", Value.vStr (oidStr s.nextId))],
            sample2 ++ [("id", Value.vStr (oidStr (s.nextId + 1)))],
            sample3 ++ [("id", Value.vStr (oidStr (s.nextId + 2)))],
            sample4 ++ [("id", Value.vStr (oidStr (s.nextId + 3)))]],
       some { s with
         product := s.product ++
           [("_id", Value.vOid s.nextId) :: sample1,
            ("_id", Value.vOid (s.nextId + 1)) :: sample2,
            ("_id", Value.vOid (s.nextId + 2)) :: sample3,
            ("_id", Value.vOid (s.nextId + 3)) :: sample4],
         nextId := s.nextId + 4 }) := by
  have hnil : s.product.filter
      (idIn [s.nextId, s.nextId + 1, s.nextId + 2, s.nextId + 3]) = [] := by
    apply filter_idIn_eq_nil
    intro m hm
    have := hWF.1 m hm
    simp only [List.mem_cons, List.not_mem_nil, or_false]
    omega
  have h1 : idIn [s.nextId, s.nextId + 1, s.nextId + 2, s.nextId + 3]
      (("_id", Value.vOid s.nextId) :: sample1) = true := by simp [idIn, dGet_cons]
  have h2 : idIn [s.nextId, s.nextId + 1, s.nextId + 2, s.nextId + 3]
      (("_id", Value.vOid (s.nextId + 1)) :: sample2) = true := by simp [idIn, dGet_cons]
  have h3 : idIn [s.nextId, s.nextId + 1, s.nextId + 2, s.nextId + 3]
      (("_id", Value.vOid (s.nextId + 2)) :: sample3) = true := by simp [idIn, dGet_cons]
  have h4 : idIn [s.nextId, s.nextId + 1, s.nextId + 2, s.nextId + 3]
      (("_id", Value.vOid (s.nextId + 3)) :: sample4) = true := by simp [idIn, dGet_cons]
  have e1 : serialize_document (("_id", Value.vOid s.nextId) :: sample1)
      = sample1 ++ [("id", Value.vStr (oidStr s.nextId))] := rfl
  have e2 : serialize_document (("_id", Value.vOid (s.nextId + 1)) :: sample2)
      = sample2 ++ [("id", Value.vStr (oidStr (s.nextId + 1)))] := rfl
  have e3 : serialize_document (("_id", Value.vOid (s.nextId + 2)) :: sample3)
      = sample3 ++ [("id", Value.vStr (oidStr (s.nextId + 2)))] := rfl
  have e4 : serialize_document (("_id", Value.vOid (s.nextId + 3)) :: sample4)
      = sample4 ++ [("id", Value.vStr (oidStr (s.nextId + 3)))] := rfl
  unfold seed_products
  dsimp only
  rw [create_document_product]
  dsimp only
  rw [create_document_product]
  dsimp only
  rw [create_document_product]
  dsimp only
  rw [create_document_product]
  dsimp only
  rw [List.filter_append, List.filter_append, List.filter_append, List.filter_append, hnil]
  simp only [List.filter_cons, h1, h2, h3, h4, if_pos, List.filter_nil, List.nil_append,
    List.append_nil, List.cons_append, List.singleton_append, List.map_cons, List.map_nil,
    e1, e2, e3, e4, List.append_assoc]

/-- **C5.** `POST /api/seed` on a well-formed available store inserts
exactly 4 new product documents — the literal catalog — and returns exactly
4 serialized products; the returned `id`s are the stringified fresh
identifiers, pairwise distinct and distinct from the string form of every
pre-existing identifier, however many products already exist. -/
theorem seed_products_four (s : Store) (hWF : WF s) :
    ∃ (out : List Doc) (s' : Store),
      seed_products (some s) = (.ok out, some s') ∧
      out.length = 4 ∧
      s'.product.length = s.product.length + 4 ∧
      s'.product = s.product ++
        [("_id", Value.vOid s.nextId) :: sample1,
         ("_id", Value.vOid (s.nextId + 1)) :: sample2,
         ("_id", Value.vOid (s.nextId + 2)) :: sample3,
         ("_id", Value.vOid (s.nextId + 3)) :: sample4] ∧
      out.map (fun d => dGet d "id") =
        [some (Value.vStr (oidStr s.nextId)), some (Value.vStr (oidStr (s.nextId + 1))),
         some (Value.vStr (oidStr (s.nextId + 2))), some (Value.vStr (oidStr (s.nextId + 3)))] ∧
      [oidStr s.nextId, oidStr (s.nextId + 1), oidStr (s.nextId + 2),
        oidStr (s.nextId + 3)].Nodup ∧
      (∀ m ∈ oidsOf s.product, ∀ i, s.nextId ≤ i → i < s.nextId + 4 →
        oidStr i ≠ oidStr m) := by
  refine ⟨_, _, seed_products_ok s hWF, rfl, ?_, ?_, rfl, ?_, ?_⟩
  · simp
  · simp
  · have hn4 : ([s.nextId, s.nextId + 1, s.nextId + 2, s.nextId + 3] : List ℕ).Nodup := by
      simp only [List.nodup_cons, List.mem_cons, List.not_mem_nil, or_false, not_or,
        List.nodup_nil, not_false_iff, and_true]
      omega
    exact hn4.map oidStr_injective
  · intro m hm i hi1 hi2 h
    have hml := hWF.1 m hm
    have := oidStr_injective h
    omega

/-- Closed instance of C5 at a concrete one-product store. -/
theorem seed_products_four_witness :
    ∃ (out : List Doc) (s' : Store),
      seed_products (some ⟨[("_id", Value.vOid 0) :: sample1], [], 1⟩) = (.ok out, some s') ∧
      out.length = 4 ∧
      s'.product.length = [("_id", Value.vOid 0) :: sample1].length + 4 ∧
      s'.product = [("_id", Value.vOid 0) :: sample1] ++
        [("_id", Value.vOid 1) :: sample1,
         ("_id", Value.vOid 2) :: sample2,
         ("_id", Value.vOid 3) :: sample3,
         ("_id", Value.vOid 4) :: sample4] ∧
      out.map (fun d => dGet d "id") =
        [some (Value.vStr (oidStr 1)), some (Value.vStr (oidStr 2)),
         some (Value.vStr (oidStr 3)), some (Value.vStr (oidStr 4))] ∧
      [oidStr 1, oidStr 2, oidStr 3, oidStr 4].Nodup ∧
      (∀ m ∈ oidsOf [("_id", Value.vOid 0) :: sample1], ∀ i, 1 ≤ i → i < 1 + 4 →
        oidStr i ≠ oidStr m) :=
  seed_products_four ⟨[("_id", Value.vOid 0) :: sample1], [], 1⟩ (by decide)

/-- **C7.** For every document carrying an `ObjectId` under the opaque
identifier key `_id` (and no `id` key yet — the shape of every stored
document), `serialize_document` returns the mapping in which `_id` is
renamed to a public `id` field holding the stringified identifier, every
other top-level `ObjectId` value is stringified in place, and all remaining
fields are untouched; the helper is a pure function of its input (the
embedding returns a fresh list, never mutating the argument), and an empty
document is returned unchanged with no `id` field synthesized. -/
theorem serialize_document_api_shape (d : Doc) (n : ℕ)
    (hid : dGet d "_id" = some (vOid n)) (hno : "id" ∉ dKeys d) :
    serialize_document d =
        (dRemove d "_id").map (fun p => (p.1, stringifyOid p.2))
          ++ [("id", vStr (oidStr n))] ∧
      dGet (serialize_document d) "id" = some (vStr (oidStr n)) ∧
      dGet (serialize_document d) "_id" = none ∧
      (∀ k, k ≠ "_id" → k ≠ "id" →
        dGet (serialize_document d) k = (dGet d k).map stringifyOid) ∧
      serialize_document ([] : Doc) = [] := by
  have hmain := serialize_document_spec hid hno
  have hrest : dGet ((dRemove d "_id").map (fun p => (p.1, stringifyOid p.2))) "id" = none := by
    rw [dGet_map_stringify]
    rw [dGet_eq_none_of_not_mem_keys (fun hmem => hno (dKeys_dRemove_subset hmem))]
    rfl
  refine ⟨hmain, ?_, ?_, ?_, rfl⟩
  · rw [hmain, dGet_append_right _ hrest, dGet_cons]
    simp
  · rw [hmain]
    have h1 : dGet ((dRemove d "_id").map (fun p => (p.1, stringifyOid p.2))) "_id" = none := by
      rw [dGet_map_stringify, dGet_dRemove_self]
      rfl
    rw [dGet_append_right _ h1, dGet_cons, if_neg (by simp), dGet_nil]
  · intro k hk1 hk2
    rw [hmain]
    have h1 : dGet ((dRemove d "_id").map (fun p => (p.1, stringifyOid p.2))) k
        = (dGet d k).map stringifyOid := by
      rw [dGet_map_stringify, dGet_dRemove_ne d (fun e => hk1 e.symm)]
    cases he : dGet d k with
    | some v =>
      have hl : dGet ((dRemove d "_id").map (fun p => (p.1, stringifyOid p.2))) k
          = some (stringifyOid v) := by rw [h1, he]; rfl
      rw [dGet_append_left _ hl]
      rfl
    | none =>
      rw [dGet_append_right _ (by rw [h1, he]; rfl)]
      rw [dGet_cons, if_neg (by simpa using fun e => hk2 e.symm), dGet_nil]
      rfl

/-- Closed instance of C7 at a concrete stored document. -/
theorem serialize_document_api_shape_witness :
    serialize_document [("_id", vOid 7), ("title", vStr "x"), ("ref", vOid 3)]
      = [("title", vStr "x"), ("ref", vStr (oidStr 3)), ("id", vStr (oidStr 7))] := by
  have h := serialize_document_api_shape
    [("_id", vOid 7), ("title", vStr "x"), ("ref", vOid 3)] 7 (by decide) (by decide)
  rw [h.1]
  rfl

/-- **C8.** Serialization is idempotent on the identifier field: a document
that already has `id` as a string, no `_id` field, and no `ObjectId`-typed
value is returned exactly as given. -/
theorem serialize_document_idempotent (d : Doc)
    (hids : ∃ s : String, dGet d "id" = some (vStr s))
    (hnoid : dGet d "_id" = none)
    (hnooid : ∀ p ∈ d, ∀ n : ℕ, p.2 ≠ vOid n) :
    serialize_document d = d := by
  obtain ⟨s, hs⟩ := hids
  have hne : d ≠ [] := by rintro rfl; simp [dGet_nil] at hs
  unfold serialize_document
  rw [if_neg hne, hnoid]
  dsimp only
  exact map_stringifyOid_eq_self hnooid

/-- Closed instance of C8 at a concrete already-serialized document. -/
theorem serialize_document_idempotent_witness :
    serialize_document [("id", vStr "abc"), ("title", vStr "x")]
      = [("id", vStr "abc"), ("title", vStr "x")] :=
  serialize_document_idempotent [("id", vStr "abc"), ("title", vStr "x")]
    ⟨"abc", by decide⟩ (by decide)
    (by
      intro p hp n
      simp only [List.mem_cons, List.not_mem_nil, or_false] at hp
      rcases hp with rfl | rfl <;> simp)

/-- **C10.** A document whose `_id` key holds `None` keeps that binding
untouched under serialization — only the other values are oid-stringified —
and no `id` field is added when none was present: the rename fires only on
a non-`None` identifier. -/
theorem serialize_document_none_id_retained (d : Doc)
    (hid : dGet d "_id" = some vNone) :
    serialize_document d = d.map (fun p => (p.1, stringifyOid p.2)) ∧
      dGet (serialize_document d) "_id" = some vNone ∧
      (dGet d "id" = none → dGet (serialize_document d) "id" = none) := by
  have hne : d ≠ [] := by rintro rfl; simp [dGet_nil] at hid
  have hmain : serialize_document d = d.map (fun p => (p.1, stringifyOid p.2)) := by
    unfold serialize_document
    rw [if_neg hne, hid]
    dsimp only
    rw [if_neg (by simp)]
  refine ⟨hmain, ?_, ?_⟩
  · rw [hmain, dGet_map_stringify, hid]
    rfl
  · intro hno
    rw [hmain, dGet_map_stringify, hno]
    rfl

/-- Closed instance of C10 at a concrete document with a `None` `_id`. -/
theorem serialize_document_none_id_retained_witness :
    serialize_document [("_id", vNone), ("title", vStr "x")]
      = [("_id", vNone), ("title", vStr "x")] := by
  have h := serialize_document_none_id_retained [("_id", vNone), ("title", vStr "x")] (by decide)
  rw [h.1]
  rfl

end EcommerceApi
